import Mathlib

/-!
Verification of the MongoDB casbin adapter (`src/adapter.ts`).

The adapter stores casbin rules as MongoDB documents with a `ptype`
discriminator, up to six optional positional string fields `v0`..`v5`, and
two optional timestamps `createdAt` and `updatedAt`.  We embed documents as
a record of `Option` fields, a collection as a list of documents, MongoDB
equality filters as partial documents matched field-by-field, and `Date`
values as natural numbers.
-/

namespace MongoAdapter

/-- A stored rule document (the `CasbinRule` interface plus the optional
timestamps of `CasbinRuleWithTimestamps`).  Every field of the TypeScript
interface is optional, so each field is an `Option`. -/
structure CasbinDoc where
  ptype : Option String := none
  v0 : Option String := none
  v1 : Option String := none
  v2 : Option String := none
  v3 : Option String := none
  v4 : Option String := none
  v5 : Option String := none
  createdAt : Option Nat := none
  updatedAt : Option Nat := none
deriving DecidableEq, Repr

/-- Read positional field `v{i}` of a document (`line[`v${i}`]`). -/
def CasbinDoc.getV (d : CasbinDoc) : Nat → Option String
  | 0 => d.v0
  | 1 => d.v1
  | 2 => d.v2
  | 3 => d.v3
  | 4 => d.v4
  | 5 => d.v5
  | _ + 6 => none

/-- Write positional field `v{i}` of a document (`line[`v${i}`] = s`); the
source only ever writes indices below 6. -/
def CasbinDoc.setV (d : CasbinDoc) : Nat → String → CasbinDoc
  | 0, s => { d with v0 := some s }
  | 1, s => { d with v1 := some s }
  | 2, s => { d with v2 := some s }
  | 3, s => { d with v3 := some s }
  | 4, s => { d with v4 := some s }
  | 5, s => { d with v5 := some s }
  | _ + 6, _ => d

theorem getV_setV (d : CasbinDoc) (j i : Nat) (s : String) :
    (d.setV j s).getV i = if i = j ∧ i < 6 then some s else d.getV i := by
  rcases i with _ | _ | _ | _ | _ | _ | i <;>
    rcases j with _ | _ | _ | _ | _ | _ | j <;>
      simp +arith [CasbinDoc.getV, CasbinDoc.setV]

theorem setV_ptype (d : CasbinDoc) (j : Nat) (s : String) :
    (d.setV j s).ptype = d.ptype := by
  rcases j with _ | _ | _ | _ | _ | _ | j <;> rfl

theorem setV_createdAt (d : CasbinDoc) (j : Nat) (s : String) :
    (d.setV j s).createdAt = d.createdAt := by
  rcases j with _ | _ | _ | _ | _ | _ | j <;> rfl

theorem setV_updatedAt (d : CasbinDoc) (j : Nat) (s : String) :
    (d.setV j s).updatedAt = d.updatedAt := by
  rcases j with _ | _ | _ | _ | _ | _ | j <;> rfl

/-- A loop `for i in [0, n)` that conditionally writes field `v{i}`,
starting from the document holding only `ptype`.  Both
`convertRuleToDocument` and `removeFilteredPolicy` build their documents
with such a loop (with `n = 6`). -/
def buildDoc (pt : String) (c : Nat → Bool) (f : Nat → String) (n : Nat) : CasbinDoc :=
  (List.range n).foldl (fun d i => if c i then d.setV i (f i) else d) { ptype := some pt }

theorem buildDoc_getV (pt : String) (c : Nat → Bool) (f : Nat → String) (n i : Nat) :
    (buildDoc pt c f n).getV i =
      if i < n ∧ i < 6 ∧ c i then some (f i) else none := by
  induction n with
  | zero =>
    simp only [buildDoc, List.range_zero, List.foldl_nil]
    have hbase : (({ ptype := some pt } : CasbinDoc)).getV i = none := by
      rcases i with _ | _ | _ | _ | _ | _ | i <;> rfl
    simp [hbase]
  | succ n ih =>
    simp only [buildDoc, List.range_succ, List.foldl_append, List.foldl_cons,
      List.foldl_nil] at *
    by_cases hc : c n
    · simp only [hc, if_pos]
      rw [getV_setV, ih]
      by_cases hin : i = n
      · subst hin
        by_cases h6 : i < 6 <;> simp +arith [h6, hc]
      · have h1 : ¬(i = n ∧ i < 6) := fun h => hin h.1
        simp only [h1, if_neg, not_false_iff]
        by_cases hlt : i < n
        · simp +arith [hlt, Nat.lt_succ_of_lt hlt]
        · have : ¬ i < n + 1 := by omega
          simp [hlt, this]
    · simp only [hc, if_neg, Bool.false_eq_true, not_false_iff]
      rw [ih]
      by_cases hlt : i < n
      · simp +arith [hlt, Nat.lt_succ_of_lt hlt]
      · by_cases hin : i = n
        · subst hin
          simp [hc]
        · have : ¬ i < n + 1 := by omega
          simp [hlt, this]

theorem buildDoc_ptype (pt : String) (c : Nat → Bool) (f : Nat → String) (n : Nat) :
    (buildDoc pt c f n).ptype = some pt := by
  induction n with
  | zero => rfl
  | succ n ih =>
    simp only [buildDoc, List.range_succ, List.foldl_append, List.foldl_cons,
      List.foldl_nil] at *
    by_cases hc : c n <;> simp [hc, setV_ptype, ih]

theorem buildDoc_createdAt (pt : String) (c : Nat → Bool) (f : Nat → String) (n : Nat) :
    (buildDoc pt c f n).createdAt = none := by
  induction n with
  | zero => rfl
  | succ n ih =>
    simp only [buildDoc, List.range_succ, List.foldl_append, List.foldl_cons,
      List.foldl_nil] at *
    by_cases hc : c n <;> simp [hc, setV_createdAt, ih]

theorem buildDoc_updatedAt (pt : String) (c : Nat → Bool) (f : Nat → String) (n : Nat) :
    (buildDoc pt c f n).updatedAt = none := by
  induction n with
  | zero => rfl
  | succ n ih =>
    simp only [buildDoc, List.range_succ, List.foldl_append, List.foldl_cons,
      List.foldl_nil] at *
    by_cases hc : c n <;> simp [hc, setV_updatedAt, ih]

/-- The three timestamp choices of `convertRuleToDocument`. -/
inductive TimestampOption where
  | none
  | updatedOnly
  | both
deriving DecidableEq, Repr

/-- Embedding of `convertRuleToDocument(ptype, rule, timestampOption)`: the
loop `for (i = 0; i < rule.length && i < 6; i++) line[`v${i}`] = rule[i]`
followed by the timestamp attachment.  `now` stands for `new Date()`. -/
def convertRuleToDocument (pt : String) (rule : List String)
    (opt : TimestampOption) (now : Nat) : CasbinDoc :=
  let line := buildDoc pt (fun i => i < rule.length) (fun i => rule.getD i "") 6
  match opt with
  | .none => line
  | .updatedOnly => { line with updatedAt := some now }
  | .both => { line with createdAt := some now, updatedAt := some now }

/-- Embedding of `savePolicyLine` (timestamps: both). -/
def savePolicyLine (pt : String) (rule : List String) (now : Nat) : CasbinDoc :=
  convertRuleToDocument pt rule .both now

/-- Embedding of `deletePolicyLine` (timestamps: none). -/
def deletePolicyLine (pt : String) (rule : List String) : CasbinDoc :=
  convertRuleToDocument pt rule .none 0

/-- Embedding of `updatePolicyLine` (timestamps: updatedAt only). -/
def updatePolicyLine (pt : String) (rule : List String) (now : Nat) : CasbinDoc :=
  convertRuleToDocument pt rule .updatedOnly now

theorem convert_getV (pt : String) (rule : List String) (opt : TimestampOption)
    (now i : Nat) :
    (convertRuleToDocument pt rule opt now).getV i =
      if i < rule.length ∧ i < 6 then some (rule.getD i "") else none := by
  have hline : ∀ j : Nat,
      (buildDoc pt (fun k => k < rule.length) (fun k => rule.getD k "") 6).getV j =
        if j < rule.length ∧ j < 6 then some (rule.getD j "") else none := by
    intro j
    rw [buildDoc_getV]
    by_cases h1 : j < 6 <;> by_cases h2 : j < rule.length <;> simp [h1, h2]
  have hup : ∀ (d : CasbinDoc) (t : Nat) (j : Nat),
      ({ d with updatedAt := some t } : CasbinDoc).getV j = d.getV j := by
    intro d t j
    rcases j with _ | _ | _ | _ | _ | _ | j <;> rfl
  have hboth : ∀ (d : CasbinDoc) (t : Nat) (j : Nat),
      ({ d with createdAt := some t, updatedAt := some t } : CasbinDoc).getV j =
        d.getV j := by
    intro d t j
    rcases j with _ | _ | _ | _ | _ | _ | j <;> rfl
  cases opt
  · exact hline i
  · exact (hup _ now i).trans (hline i)
  · exact (hboth _ now i).trans (hline i)

theorem convert_ptype (pt : String) (rule : List String) (opt : TimestampOption)
    (now : Nat) :
    (convertRuleToDocument pt rule opt now).ptype = some pt := by
  cases opt <;> simp [convertRuleToDocument, buildDoc_ptype]

theorem convert_createdAt (pt : String) (rule : List String) (now : Nat) :
    (convertRuleToDocument pt rule .none now).createdAt = none ∧
    (convertRuleToDocument pt rule .updatedOnly now).createdAt = none ∧
    (convertRuleToDocument pt rule .both now).createdAt = some now := by
  refine ⟨?_, ?_, rfl⟩ <;> simp [convertRuleToDocument, buildDoc_createdAt]

theorem convert_updatedAt (pt : String) (rule : List String) (now : Nat) :
    (convertRuleToDocument pt rule .none now).updatedAt = none ∧
    (convertRuleToDocument pt rule .updatedOnly now).updatedAt = some now ∧
    (convertRuleToDocument pt rule .both now).updatedAt = some now := by
  refine ⟨?_, rfl, rfl⟩
  simp [convertRuleToDocument, buildDoc_updatedAt]

/-- MongoDB equality match of one optional filter field against one document
field: an absent filter field leaves the document field unconstrained, a
present one requires the document field to hold exactly that value. -/
def optMatches {α : Type} [DecidableEq α] (fil v : Option α) : Bool :=
  match fil with
  | Option.none => true
  | Option.some x => v = some x

/-- MongoDB equality filter: a partial document matches a stored document
when every field present in the filter equals the corresponding field of
the document. -/
def matchesDoc (fil d : CasbinDoc) : Bool :=
  optMatches fil.ptype d.ptype && optMatches fil.v0 d.v0 && optMatches fil.v1 d.v1 &&
    optMatches fil.v2 d.v2 && optMatches fil.v3 d.v3 && optMatches fil.v4 d.v4 &&
    optMatches fil.v5 d.v5 && optMatches fil.createdAt d.createdAt &&
    optMatches fil.updatedAt d.updatedAt

theorem matchesDoc_iff (fil d : CasbinDoc) :
    matchesDoc fil d = true ↔
      optMatches fil.ptype d.ptype = true ∧
      (∀ i, i < 6 → optMatches (fil.getV i) (d.getV i) = true) ∧
      optMatches fil.createdAt d.createdAt = true ∧
      optMatches fil.updatedAt d.updatedAt = true := by
  constructor
  · intro h
    simp only [matchesDoc, Bool.and_eq_true] at h
    obtain ⟨⟨⟨⟨⟨⟨⟨⟨h0, h1⟩, h2⟩, h3⟩, h4⟩, h5⟩, h6⟩, h7⟩, h8⟩ := h
    refine ⟨h0, ?_, h7, h8⟩
    intro i hi
    interval_cases i <;> assumption
  · rintro ⟨h0, hv, h7, h8⟩
    simp only [matchesDoc, Bool.and_eq_true]
    exact ⟨⟨⟨⟨⟨⟨⟨⟨h0, hv 0 (by omega)⟩, hv 1 (by omega)⟩, hv 2 (by omega)⟩,
      hv 3 (by omega)⟩, hv 4 (by omega)⟩, hv 5 (by omega)⟩, h7⟩, h8⟩

/-- A MongoDB collection, in natural (insertion) order. -/
abbrev Collection := List CasbinDoc

/-- MongoDB `insertOne`. -/
def insertOne (d : CasbinDoc) (c : Collection) : Collection := c ++ [d]

/-- MongoDB `insertMany`. -/
def insertMany (ds : List CasbinDoc) (c : Collection) : Collection := c ++ ds

/-- MongoDB `deleteOne(filter)`: removes the first matching document in
natural order, a no-op when nothing matches. -/
def deleteOne (fil : CasbinDoc) : Collection → Collection
  | [] => []
  | d :: rest => if matchesDoc fil d then rest else d :: deleteOne fil rest

/-- MongoDB `deleteMany(filter)`: removes every matching document. -/
def deleteMany (fil : CasbinDoc) (c : Collection) : Collection :=
  c.filter (fun d => !(matchesDoc fil d))

/-- MongoDB `updateOne(filter, op)`: applies the update to the first
matching document in natural order, a no-op when nothing matches. -/
def updateOne (fil : CasbinDoc) (op : CasbinDoc → CasbinDoc) : Collection → Collection
  | [] => []
  | d :: rest => if matchesDoc fil d then op d :: rest else d :: updateOne fil op rest

/-- JavaScript truthiness of an optional string field: `undefined` and the
empty string are falsy, everything else is truthy (`.filter((n) => n)`). -/
def jsTruthy (o : Option String) : Bool :=
  match o with
  | Option.none => false
  | Option.some s => s ≠ ""

/-- JavaScript string coercion of an optional string in concatenation:
`undefined + ", "` yields the text "undefined". -/
def jsStr (o : Option String) : String :=
  match o with
  | Option.none => "undefined"
  | Option.some s => s

/-- Embedding of `loadPolicyLine`'s line construction:
`line.ptype + ", " + [v0..v5].filter((n) => n).join(", ")`.  The value fed
to `Helper.loadPolicyLine`. -/
def loadPolicyLine (d : CasbinDoc) : String :=
  jsStr d.ptype ++ ", " ++
    String.intercalate ", "
      (([d.v0, d.v1, d.v2, d.v3, d.v4, d.v5].filter jsTruthy).map (fun o => o.getD ""))

/-- The lines `loadFilteredPolicy` feeds to the enforcer hook, one per
document returned by the read (`lines.forEach(...)`). -/
def loadPolicyLines (c : Collection) : List String := c.map loadPolicyLine

/-- The adapter configuration fixed by the constructor: the filtering-mode
flag `useFilter` and the drop-on-save flag `dropCollectionOnManualSave`. -/
structure AdapterState where
  useFilter : Bool
  dropCollectionOnManualSave : Bool
deriving DecidableEq, Repr

/-- Embedding of the `MongoAdapter` constructor up to its synchronous
configuration check: `if (!uri) throw new MongoAdapterError(...)` runs
before the Mongo client is even created, so an empty connection string
fails with the configuration error and any other string yields the
configured adapter state.  A JavaScript string is falsy exactly when it is
empty. -/
def constructAdapter (uri : String) (filtered dropOnSave : Bool) :
    Except String AdapterState :=
  if uri = "" then Except.error "MongoDB URI is required."
  else Except.ok { useFilter := filtered, dropCollectionOnManualSave := dropOnSave }

/-- Embedding of `isFiltered()`: returns the `useFilter` flag. -/
def isFiltered (st : AdapterState) : Bool := st.useFilter

/-- Embedding of `getFilteredPolicyLines(filter?)`: when `useFilter` is set
the read applies the supplied filter (an absent filter reads everything),
otherwise `collection.find()` reads everything. -/
def getFilteredPolicyLines (st : AdapterState) (fil : Option (CasbinDoc → Bool))
    (c : Collection) : List CasbinDoc :=
  if st.useFilter then c.filter (fil.getD (fun _ => true)) else c

/-- Embedding of `loadFilteredPolicy(model, filter?)`: reads the (possibly
filtered) documents and feeds one converted line per document to the
enforcer hook.  The method touches no adapter state, so the state comes
back unchanged. -/
def loadFilteredPolicy (st : AdapterState) (fil : Option (CasbinDoc → Bool))
    (c : Collection) : AdapterState × List String :=
  (st, loadPolicyLines (getFilteredPolicyLines st fil c))

/-- Embedding of `loadPolicy(model)`: delegates to `loadFilteredPolicy`
with no filter. -/
def loadPolicy (st : AdapterState) (c : Collection) : AdapterState × List String :=
  loadFilteredPolicy st Option.none c

/-- Embedding of `addPolicy`. -/
def addPolicy (pt : String) (rule : List String) (now : Nat) (c : Collection) :
    Collection :=
  insertOne (savePolicyLine pt rule now) c

/-- Per-field result of the `updateOne` operation built by `updatePolicy`
for an unprotected key (`ptype`, `v0`..`v5`): a field present in the new
line is `$set` to its value; otherwise, a field present in the old line —
a key of `oldLine` absent from `newLine` — is `$unset`; any other field
is untouched. -/
def updatedField {α : Type} (oldF newF cur : Option α) : Option α :=
  match newF with
  | Option.some v => Option.some v
  | Option.none => if oldF.isSome then Option.none else cur

/-- Per-field result for the protected keys `createdAt` and `updatedAt`,
which `updatePolicy` excludes from the `$unset` document: they are `$set`
when present in the new line and untouched otherwise. -/
def protectedField {α : Type} (newF cur : Option α) : Option α :=
  match newF with
  | Option.some v => Option.some v
  | Option.none => cur

/-- The effect on one matched document of the update operation
`{$set: newLine, $unset: keys(oldLine) minus keys(newLine) minus
{createdAt, updatedAt}}` built by `updatePolicy`. -/
def applyUpdateOperation (oldLine newLine d : CasbinDoc) : CasbinDoc where
  ptype := updatedField oldLine.ptype newLine.ptype d.ptype
  v0 := updatedField oldLine.v0 newLine.v0 d.v0
  v1 := updatedField oldLine.v1 newLine.v1 d.v1
  v2 := updatedField oldLine.v2 newLine.v2 d.v2
  v3 := updatedField oldLine.v3 newLine.v3 d.v3
  v4 := updatedField oldLine.v4 newLine.v4 d.v4
  v5 := updatedField oldLine.v5 newLine.v5 d.v5
  createdAt := protectedField newLine.createdAt d.createdAt
  updatedAt := protectedField newLine.updatedAt d.updatedAt

theorem applyUpdateOperation_getV (oldLine newLine d : CasbinDoc) (i : Nat) :
    (applyUpdateOperation oldLine newLine d).getV i =
      updatedField (oldLine.getV i) (newLine.getV i) (d.getV i) := by
  rcases i with _ | _ | _ | _ | _ | _ | i <;> rfl

/-- Embedding of `updatePolicy(sec, ptype, oldRule, newRule)`: builds the
old rule's exact key via `deletePolicyLine`, the new field set via
`updatePolicyLine`, and issues a single `updateOne` on the old key. -/
def updatePolicy (pt : String) (oldRule newRule : List String) (now : Nat)
    (c : Collection) : Collection :=
  let oldLine := deletePolicyLine pt oldRule
  let newLine := updatePolicyLine pt newRule now
  updateOne oldLine (applyUpdateOperation oldLine newLine) c

/-- Embedding of `removePolicy`. -/
def removePolicy (pt : String) (rule : List String) (c : Collection) : Collection :=
  deleteOne (deletePolicyLine pt rule) c

/-- Embedding of `removeFilteredPolicy(sec, ptype, fieldIndex, ...fieldValues)`:
the loop `for (i = 0; i < 6; i++) if (fieldIndex <= i && i < fieldIndex +
fieldValues.length) line[`v${i}`] = fieldValues[i - fieldIndex]` followed
by `deleteMany(line)`.  The casbin contract passes a non-negative
`fieldIndex`, embedded as a `Nat`. -/
def removeFilteredPolicy (pt : String) (fieldIndex : Nat) (fieldValues : List String)
    (c : Collection) : Collection :=
  let line := buildDoc pt
    (fun i => fieldIndex ≤ i && i < fieldIndex + fieldValues.length)
    (fun i => fieldValues.getD (i - fieldIndex) "") 6
  deleteMany line c

/-- The narrow view of the enforcer model the adapter reads: for the "p"
and the "g" section, the declared rule-type entries, each a ptype with its
current in-memory list of rules (`model.model.get(key)` as an entry
list; a missing section is the empty list). -/
structure PolicyModel where
  p : List (String × List (List String))
  g : List (String × List (List String))

/-- Embedding of `extractPolicyRules(model, key)`: flat-maps every declared
entry of the section to one saved line per rule. -/
def extractPolicyRules (entries : List (String × List (List String))) (now : Nat) :
    List CasbinDoc :=
  entries.flatMap (fun e => e.2.map (fun r => savePolicyLine e.1 r now))

/-- Embedding of `getAllPolicyRules(model)`: the "p" rules followed by the
"g" rules. -/
def getAllPolicyRules (m : PolicyModel) (now : Nat) : List CasbinDoc :=
  extractPolicyRules m.p now ++ extractPolicyRules m.g now

/-- Embedding of `clearCollection()`: when the drop-on-save flag is set the
collection is dropped (and is recreated empty), otherwise
`deleteMany({})` removes every document; either way every document is
gone. -/
def clearCollection (st : AdapterState) (c : Collection) : Collection :=
  if st.dropCollectionOnManualSave then [] else deleteMany {} c

/-- Embedding of `savePolicy(model)`: clears the collection, then
bulk-inserts the model's full rule set when it is non-empty, and returns
`true`. -/
def savePolicy (st : AdapterState) (m : PolicyModel) (now : Nat) (c : Collection) :
    Collection × Bool :=
  let cleared := clearCollection st c
  let allRules := getAllPolicyRules m now
  (if allRules.length > 0 then insertMany allRules cleared else cleared, true)

/-- Embedding of `addPolicies`. -/
def addPolicies (pt : String) (rules : List (List String)) (now : Nat)
    (c : Collection) : Collection :=
  insertMany (rules.map (fun r => savePolicyLine pt r now)) c

/-- The `deleteOne` filters `removePolicies` issues, one per rule in order
(the `lines` array). -/
def removePoliciesJobs (pt : String) (rules : List (List String)) : List CasbinDoc :=
  rules.map (deletePolicyLine pt)

/-- `Promise.all` over the settled outcomes of the issued deletions, in
settlement order: `none` means fulfilled; the batch result is the first
rejection when there is one and success otherwise. -/
def promiseAllResult (outcomes : List (Option String)) : Option String :=
  outcomes.findSome? id

/-- The collection after every issued `deleteOne` has settled, given the
jobs paired with their outcomes in settlement order: a fulfilled deletion
has removed its first matching document, a rejected one has changed
nothing. -/
def settleDeletes (sched : List (CasbinDoc × Option String)) (c : Collection) :
    Collection :=
  sched.foldl (fun acc j => if j.2 = Option.none then deleteOne j.1 acc else acc) c

/-- The present, non-empty positional fields of a document, in order: the
field list against which claim C10 describes the produced line. -/
def presentNonEmptyFields (d : CasbinDoc) : List String :=
  ([d.v0, d.v1, d.v2, d.v3, d.v4, d.v5].filterMap id).filter (fun s => s ≠ "")

/-- Modelled from the spec words for the load line format of claim C6:
the line lists `ptype` then the positional fields in order, omitting
only the absent trailing fields (present fields, empty strings included,
all appear). -/
def specLineTrailingOmitted (d : CasbinDoc) : String :=
  let fields := [d.v0, d.v1, d.v2, d.v3, d.v4, d.v5]
  let trimmed := (fields.reverse.dropWhile (fun o => o.isNone)).reverse
  jsStr d.ptype ++ ", " ++ String.intercalate ", " (trimmed.map (fun o => o.getD ""))

theorem filter_jsTruthy_eq (l : List (Option String)) :
    (l.filter jsTruthy).map (fun o => o.getD "") =
      (l.filterMap id).filter (fun s => s ≠ "") := by
  induction l with
  | nil => rfl
  | cons hd tl ih =>
    cases hd with
    | none => simpa [jsTruthy] using ih
    | some s =>
      by_cases hs : s = ""
      · subst hs
        simpa [jsTruthy] using ih
      · simp [jsTruthy, hs, ih]

theorem matchesDoc_empty (d : CasbinDoc) : matchesDoc {} d = true := rfl

theorem deleteMany_empty (c : Collection) : deleteMany {} c = [] := by
  simp [deleteMany, matchesDoc_empty]

/-- C4: `convertRuleToDocument` produces a document with `ptype` plus
`v0..v_{n-1}` for each provided field, ignoring fields beyond index 5, and
attaches timestamps according to the caller's option: none for delete or
match keys, a refreshed `updatedAt` only for updates, and
`createdAt = updatedAt =` the current instant for new insertions. -/
theorem c4_convertRuleToDocument_spec (pt : String) (rule : List String)
    (opt : TimestampOption) (now : Nat) :
    (convertRuleToDocument pt rule opt now).ptype = some pt ∧
    (∀ i : Nat, (convertRuleToDocument pt rule opt now).getV i =
      if i < rule.length ∧ i < 6 then some (rule.getD i "") else none) ∧
    (convertRuleToDocument pt rule opt now).createdAt =
      (match opt with | .both => some now | _ => none) ∧
    (convertRuleToDocument pt rule opt now).updatedAt =
      (match opt with | .none => none | _ => some now) := by
  refine ⟨convert_ptype pt rule opt now, fun i => convert_getV pt rule opt now i, ?_, ?_⟩
  · cases opt
    · exact (convert_createdAt pt rule now).1
    · exact (convert_createdAt pt rule now).2.1
    · exact (convert_createdAt pt rule now).2.2
  · cases opt
    · exact (convert_updatedAt pt rule now).1
    · exact (convert_updatedAt pt rule now).2.1
    · exact (convert_updatedAt pt rule now).2.2

/-- C9: constructing an adapter with an empty connection string raises the
configuration error synchronously, before any client is created; any
non-empty connection string passes the check and yields the configured
adapter state. -/
theorem c9_constructor_empty_uri (filtered dropOnSave : Bool) :
    constructAdapter "" filtered dropOnSave =
      Except.error "MongoDB URI is required." ∧
    (∀ uri : String, uri ≠ "" →
      constructAdapter uri filtered dropOnSave =
        Except.ok { useFilter := filtered, dropCollectionOnManualSave := dropOnSave }) := by
  constructor
  · rfl
  · intro uri h
    simp [constructAdapter, h]

/-- Witness for C9 at the connection string "mongodb://localhost". -/
theorem c9_witness :
    ("mongodb://localhost" ≠ "") ∧
    constructAdapter "mongodb://localhost" true false =
      Except.ok { useFilter := true, dropCollectionOnManualSave := false } :=
  ⟨by decide, (c9_constructor_empty_uri true false).2 "mongodb://localhost" (by decide)⟩

/-- C10: converting a stored document to an enforcer line omits every
positional field that is absent or holds the empty string, at any
position: the line is `ptype` followed by exactly the present, non-empty
fields of `v0..v5` joined in order by ", ". -/
theorem c10_loadPolicyLine_drops_empty_fields (d : CasbinDoc) :
    loadPolicyLine d =
      jsStr d.ptype ++ ", " ++ String.intercalate ", " (presentNonEmptyFields d) := by
  simp only [loadPolicyLine, presentNonEmptyFields, filter_jsTruthy_eq]

/-- Counterexample for C6: the document with `v0 = ""` and `v1 = "b"` is
converted to the line "p, b", not to the spec's format "p, , b" in which
only absent trailing fields are omitted: a present empty-string field is
dropped as well. -/
theorem c6_counterexample :
    loadPolicyLine { ptype := some "p", v0 := some "", v1 := some "b" } ≠
      specLineTrailingOmitted { ptype := some "p", v0 := some "", v1 := some "b" } := by
  decide

/-- C6 (amended): the load operation feeds the enforcer hook one line per
document in the collection, each line being the document's `ptype`
followed by its present, non-empty positional fields in order joined by
", " (absent fields, and empty-string fields, are omitted at any
position). -/
theorem c6_loadPolicy_lines (c : Collection) :
    loadPolicyLines c =
      c.map (fun d =>
        jsStr d.ptype ++ ", " ++ String.intercalate ", " (presentNonEmptyFields d)) ∧
    (loadPolicyLines c).length = c.length := by
  constructor
  · apply List.map_congr_left
    intro d _
    simp only [loadPolicyLine, presentNonEmptyFields, filter_jsTruthy_eq]
  · simp [loadPolicyLines]

/-- Counterexample for C7: `loadFilteredPolicy` does not set the
"is filtered" flag — two adapters receiving the identical call (same
filter, same collection) end with different `isFiltered` answers, namely
each keeps its construction-time flag; and with the flag off the supplied
filter is ignored even though it matches nothing. -/
theorem c7_counterexample :
    (loadFilteredPolicy { useFilter := false, dropCollectionOnManualSave := false }
        (some (fun _ => false)) [{ ptype := some "p", v0 := some "a" }]).1.useFilter
      = false ∧
    (loadFilteredPolicy { useFilter := true, dropCollectionOnManualSave := false }
        (some (fun _ => false)) [{ ptype := some "p", v0 := some "a" }]).1.useFilter
      = true ∧
    (loadFilteredPolicy { useFilter := false, dropCollectionOnManualSave := false }
        (some (fun _ => false)) [{ ptype := some "p", v0 := some "a" }]).2
      = [loadPolicyLine { ptype := some "p", v0 := some "a" }] :=
  ⟨rfl, rfl, rfl⟩

/-- C7 (amended): the filtering-mode flag is fixed at construction;
`loadFilteredPolicy` applies the supplied filter to the read exactly when
that flag is enabled (otherwise it reads every document, ignoring the
filter), leaves the adapter state unchanged, and `isFiltered` returns the
flag. -/
theorem c7_loadFilteredPolicy_flag (st : AdapterState) (p : CasbinDoc → Bool)
    (c : Collection) :
    (loadFilteredPolicy st (some p) c).1 = st ∧
    isFiltered (loadFilteredPolicy st (some p) c).1 = st.useFilter ∧
    (loadFilteredPolicy st (some p) c).2 =
      (if st.useFilter then loadPolicyLines (c.filter p) else loadPolicyLines c) := by
  refine ⟨rfl, rfl, ?_⟩
  by_cases h : st.useFilter <;>
    simp [loadFilteredPolicy, getFilteredPolicyLines, h]

/-- C5: `savePolicy` clears the collection (dropping it when the
drop-on-save flag is set, deleting all documents otherwise — the prior
contents are gone either way), bulk-inserts the model's full rule set
with the policy ("p") rules before the grouping ("g") rules, stamps every
inserted document with `createdAt` equal to `updatedAt` at insertion
time, and returns `true`. -/
theorem c5_savePolicy_spec (st : AdapterState) (m : PolicyModel) (now : Nat)
    (c : Collection) :
    (savePolicy st m now c).2 = true ∧
    (savePolicy st m now c).1 =
      extractPolicyRules m.p now ++ extractPolicyRules m.g now ∧
    (∀ d, d ∈ (savePolicy st m now c).1 →
      d.createdAt = some now ∧ d.updatedAt = some now) := by
  have hclear : clearCollection st c = [] := by
    by_cases h : st.dropCollectionOnManualSave <;>
      simp [clearCollection, h, deleteMany_empty]
  have hcol : (savePolicy st m now c).1 = getAllPolicyRules m now := by
    simp only [savePolicy, hclear]
    by_cases h : (getAllPolicyRules m now).length > 0
    · simp [h, insertMany]
    · have : getAllPolicyRules m now = [] := by
        cases heq : getAllPolicyRules m now with
        | nil => rfl
        | cons x xs => rw [heq] at h; simp at h
      simp [h, this]
  refine ⟨rfl, by rw [hcol]; rfl, ?_⟩
  intro d hd
  rw [hcol] at hd
  simp only [getAllPolicyRules, List.mem_append, extractPolicyRules,
    List.mem_flatMap, List.mem_map] at hd
  have : ∃ pt r, d = savePolicyLine pt r now := by
    rcases hd with ⟨e, _, r, _, hr⟩ | ⟨e, _, r, _, hr⟩ <;> exact ⟨e.1, r, hr.symm⟩
  rcases this with ⟨pt, r, rfl⟩
  exact ⟨(convert_createdAt pt r now).2.2, (convert_updatedAt pt r now).2.2⟩

/-- Witness for C5: a one-rule "p" section saved over a non-empty
collection yields exactly that rule's document, stamped
`createdAt = updatedAt`, with the old contents gone. -/
theorem c5_witness :
    (savePolicyLine "p" ["a"] 4) ∈
      (savePolicy { useFilter := false, dropCollectionOnManualSave := false }
        { p := [("p", [["a"]])], g := [] } 4 [savePolicyLine "q" ["z"] 0]).1 ∧
    ((savePolicyLine "p" ["a"] 4).createdAt = some 4 ∧
     (savePolicyLine "p" ["a"] 4).updatedAt = some 4) :=
  ⟨by decide,
    (c5_savePolicy_spec { useFilter := false, dropCollectionOnManualSave := false }
      { p := [("p", [["a"]])], g := [] } 4 [savePolicyLine "q" ["z"] 0]).2.2
      (savePolicyLine "p" ["a"] 4) (by decide)⟩

theorem removeFiltered_line_matches (pt : String) (fieldIndex : Nat)
    (vals : List String) (h6 : fieldIndex + vals.length ≤ 6) (d : CasbinDoc) :
    matchesDoc
        (buildDoc pt (fun i => fieldIndex ≤ i && i < fieldIndex + vals.length)
          (fun i => vals.getD (i - fieldIndex) "") 6) d = true ↔
      (d.ptype = some pt ∧
        ∀ j, j < vals.length → d.getV (fieldIndex + j) = some (vals.getD j "")) := by
  rw [matchesDoc_iff]
  constructor
  · rintro ⟨h0, hv, -, -⟩
    rw [buildDoc_ptype] at h0
    refine ⟨by simpa [optMatches] using h0, ?_⟩
    intro j hj
    have hi6 : fieldIndex + j < 6 := by omega
    have hij := hv (fieldIndex + j) hi6
    rw [buildDoc_getV] at hij
    rw [if_pos ⟨hi6, hi6, by simp [hj]⟩] at hij
    simpa [optMatches, Nat.add_sub_cancel_left] using hij
  · rintro ⟨h0, hv⟩
    refine ⟨?_, ?_, ?_, ?_⟩
    · rw [buildDoc_ptype]; simp [optMatches, h0]
    · intro i hi
      rw [buildDoc_getV]
      by_cases hw : fieldIndex ≤ i ∧ i < fieldIndex + vals.length
      · rw [if_pos ⟨hi, hi, by simp [hw.1, hw.2]⟩]
        have hj := hv (i - fieldIndex) (by omega)
        rw [show fieldIndex + (i - fieldIndex) = i by omega] at hj
        simp [optMatches, hj]
      · rw [if_neg (by simp only [Bool.and_eq_true, decide_eq_true_eq]; tauto)]
        rfl
    · rw [buildDoc_createdAt]; rfl
    · rw [buildDoc_updatedAt]; rfl

/-- C3: `removeFilteredPolicy` builds the partial-match document holding
`ptype` and exactly the fields `v[offset]..v[offset+k]` bound to the given
values, and deletes exactly the documents whose `ptype` matches and whose
window fields equal the given values, leaving every other document (and
all other positional fields) unconstrained; a zero-match call leaves the
collection unchanged. -/
theorem c3_removeFilteredPolicy_spec (pt : String) (fieldIndex : Nat)
    (fieldValues : List String) (c : Collection)
    (h6 : fieldIndex + fieldValues.length ≤ 6) :
    ((buildDoc pt (fun i => fieldIndex ≤ i && i < fieldIndex + fieldValues.length)
        (fun i => fieldValues.getD (i - fieldIndex) "") 6).ptype = some pt ∧
     (∀ i : Nat,
        (buildDoc pt (fun i => fieldIndex ≤ i && i < fieldIndex + fieldValues.length)
          (fun i => fieldValues.getD (i - fieldIndex) "") 6).getV i =
          if fieldIndex ≤ i ∧ i < fieldIndex + fieldValues.length then
            some (fieldValues.getD (i - fieldIndex) "") else none)) ∧
    (∀ d : CasbinDoc, d ∈ removeFilteredPolicy pt fieldIndex fieldValues c ↔
      d ∈ c ∧ ¬(d.ptype = some pt ∧
        ∀ j, j < fieldValues.length →
          d.getV (fieldIndex + j) = some (fieldValues.getD j ""))) ∧
    ((∀ d, d ∈ c → ¬(d.ptype = some pt ∧
        ∀ j, j < fieldValues.length →
          d.getV (fieldIndex + j) = some (fieldValues.getD j ""))) →
      removeFilteredPolicy pt fieldIndex fieldValues c = c) := by
  refine ⟨⟨buildDoc_ptype _ _ _ _, ?_⟩, ?_, ?_⟩
  · intro i
    rw [buildDoc_getV]
    by_cases hw : fieldIndex ≤ i ∧ i < fieldIndex + fieldValues.length
    · rw [if_pos ⟨by omega, by omega, by simp [hw.1, hw.2]⟩, if_pos hw]
    · rw [if_neg (by simp only [Bool.and_eq_true, decide_eq_true_eq]; tauto),
        if_neg hw]
  · intro d
    simp only [removeFilteredPolicy, deleteMany, List.mem_filter,
      Bool.not_eq_eq_eq_not, Bool.not_true]
    rw [← removeFiltered_line_matches pt fieldIndex fieldValues h6 d]
    simp
  · intro hnone
    simp only [removeFilteredPolicy, deleteMany]
    apply List.filter_eq_self.mpr
    intro d hd
    have hq := hnone d hd
    rw [← removeFiltered_line_matches pt fieldIndex fieldValues h6 d] at hq
    cases h : matchesDoc
        (buildDoc pt (fun i => fieldIndex ≤ i && i < fieldIndex + fieldValues.length)
          (fun i => fieldValues.getD (i - fieldIndex) "") 6) d
    · simp [h]
    · exact absurd h hq

/-- Witness for C3: offset 1 with one value on a collection whose only
document does not carry that value at `v1` is a no-op. -/
theorem c3_witness :
    (1 + (["b"] : List String).length ≤ 6) ∧
    removeFilteredPolicy "p" 1 ["b"] [savePolicyLine "p" ["z", "c"] 3] =
      [savePolicyLine "p" ["z", "c"] 3] :=
  ⟨by decide,
    (c3_removeFilteredPolicy_spec "p" 1 ["b"] [savePolicyLine "p" ["z", "c"] 3]
        (by decide)).2.2
      (by
        intro d hd
        simp only [List.mem_singleton] at hd
        subst hd
        decide)⟩

theorem deleteLine_matches_saved (pt : String) (r : List String) (t0 : Nat) :
    matchesDoc (deletePolicyLine pt r) (savePolicyLine pt r t0) = true := by
  rw [matchesDoc_iff]
  refine ⟨?_, ?_, ?_, ?_⟩
  · simp [deletePolicyLine, savePolicyLine, convert_ptype, optMatches]
  · intro i hi
    simp only [deletePolicyLine, savePolicyLine, convert_getV]
    by_cases h : i < r.length ∧ i < 6 <;> simp [h, optMatches]
  · rw [show (deletePolicyLine pt r).createdAt = none from
      (convert_createdAt pt r 0).1]
    rfl
  · rw [show (deletePolicyLine pt r).updatedAt = none from
      (convert_updatedAt pt r 0).1]
    rfl

theorem updatePolicy_single (pt : String) (oldRule newRule : List String)
    (t0 now : Nat) :
    updatePolicy pt oldRule newRule now [savePolicyLine pt oldRule t0] =
      [applyUpdateOperation (deletePolicyLine pt oldRule)
        (updatePolicyLine pt newRule now) (savePolicyLine pt oldRule t0)] := by
  simp [updatePolicy, updateOne, deleteLine_matches_saved]

theorem updatePolicy_on_saved_spec (pt : String)
    (oldRule newRule : List String) (t0 now : Nat) :
    ∃ d2 : CasbinDoc,
      updatePolicy pt oldRule newRule now [savePolicyLine pt oldRule t0] = [d2] ∧
      (∀ k : Nat, newRule.length ≤ k → d2.getV k = none) ∧
      (∀ k : Nat, k < newRule.length → k < 6 →
        d2.getV k = some (newRule.getD k "")) ∧
      d2.ptype = some pt ∧ d2.createdAt = some t0 ∧ d2.updatedAt = some now := by
  refine ⟨_, updatePolicy_single pt oldRule newRule t0 now, ?_, ?_, ?_, ?_, ?_⟩
  · intro k hk
    rw [applyUpdateOperation_getV]
    simp only [deletePolicyLine, updatePolicyLine, savePolicyLine, convert_getV]
    have hm : ¬(k < newRule.length ∧ k < 6) := fun hh => absurd hh.1 (by omega)
    rw [if_neg hm]
    by_cases h : k < oldRule.length ∧ k < 6
    · rw [if_pos h]; simp [updatedField]
    · rw [if_neg h]; simp [updatedField]
  · intro k h1 h2
    rw [applyUpdateOperation_getV]
    simp only [deletePolicyLine, updatePolicyLine, savePolicyLine, convert_getV]
    simp [updatedField, h1, h2]
  · show updatedField (deletePolicyLine pt oldRule).ptype
      (updatePolicyLine pt newRule now).ptype (savePolicyLine pt oldRule t0).ptype
        = some pt
    rw [show (updatePolicyLine pt newRule now).ptype = some pt from
      convert_ptype pt newRule .updatedOnly now]
    rfl
  · show protectedField (updatePolicyLine pt newRule now).createdAt
      (savePolicyLine pt oldRule t0).createdAt = some t0
    rw [show (updatePolicyLine pt newRule now).createdAt = none from
      (convert_createdAt pt newRule now).2.1,
      show (savePolicyLine pt oldRule t0).createdAt = some t0 from
      (convert_createdAt pt oldRule t0).2.2]
    rfl
  · show protectedField (updatePolicyLine pt newRule now).updatedAt
      (savePolicyLine pt oldRule t0).updatedAt = some now
    rw [show (updatePolicyLine pt newRule now).updatedAt = some now from
      (convert_updatedAt pt newRule now).2.1]
    rfl

/-- C1: on a rule stored with the old field list, `updatePolicy` issues a
single update on the old rule's exact key that sets the new rule's fields
and unsets every stale positional field, never unsetting `createdAt` or
`updatedAt`: the single resulting document has no `v{k}` for any
`k ≥ newRule.length`, carries the new values below that, and keeps its
`createdAt` while receiving the refreshed `updatedAt`. -/
theorem c1_updatePolicy_unsets_stale_fields (pt : String)
    (oldRule newRule : List String) (t0 now : Nat) :
    ∃ d2 : CasbinDoc,
      updatePolicy pt oldRule newRule now [savePolicyLine pt oldRule t0] = [d2] ∧
      (∀ k : Nat, newRule.length ≤ k → d2.getV k = none) ∧
      (∀ k : Nat, k < newRule.length → k < 6 →
        d2.getV k = some (newRule.getD k "")) ∧
      d2.ptype = some pt ∧ d2.createdAt = some t0 ∧ d2.updatedAt = some now :=
  updatePolicy_on_saved_spec pt oldRule newRule t0 now

/-- Witness for C1: a 3-field rule updated to a 1-field rule. -/
theorem c1_witness :
    ∃ d2 : MongoAdapter.CasbinDoc,
      updatePolicy "p" ["a", "b", "c"] ["x"] 9 [savePolicyLine "p" ["a", "b", "c"] 5]
        = [d2] ∧
      (∀ k : Nat, (["x"] : List String).length ≤ k → d2.getV k = none) ∧
      (∀ k : Nat, k < (["x"] : List String).length → k < 6 →
        d2.getV k = some ((["x"] : List String).getD k "")) ∧
      d2.ptype = some "p" ∧ d2.createdAt = some 5 ∧ d2.updatedAt = some 9 :=
  c1_updatePolicy_unsets_stale_fields "p" ["a", "b", "c"] ["x"] 5 9

/-- C2: on a rule stored with the old field list, `updatePolicy` leaves
`createdAt` unchanged, replaces `updatedAt` by the fresh, strictly later
timestamp, and modifies no other non-positional field (`ptype` is
unchanged). -/
theorem c2_updatePolicy_timestamps (pt : String) (oldRule newRule : List String)
    (t0 now : Nat) (h : t0 < now) :
    ∃ d2 : CasbinDoc,
      updatePolicy pt oldRule newRule now [savePolicyLine pt oldRule t0] = [d2] ∧
      (savePolicyLine pt oldRule t0).createdAt = some t0 ∧
      d2.createdAt = some t0 ∧
      (savePolicyLine pt oldRule t0).updatedAt = some t0 ∧
      d2.updatedAt = some now ∧ t0 < now ∧
      d2.ptype = (savePolicyLine pt oldRule t0).ptype := by
  obtain ⟨d2, heq, -, -, hpt, hcr, hup⟩ :=
    updatePolicy_on_saved_spec pt oldRule newRule t0 now
  exact ⟨d2, heq, (convert_createdAt pt oldRule t0).2.2, hcr,
    (convert_updatedAt pt oldRule t0).2.2, hup, h,
    hpt.trans (convert_ptype pt oldRule .both t0).symm⟩

/-- Witness for C2 with creation time 5 and update time 9. -/
theorem c2_witness :
    (5 < 9) ∧
    ∃ d2 : MongoAdapter.CasbinDoc,
      updatePolicy "p" ["a", "b", "c"] ["x"] 9 [savePolicyLine "p" ["a", "b", "c"] 5]
        = [d2] ∧
      (savePolicyLine "p" ["a", "b", "c"] 5).createdAt = some 5 ∧
      d2.createdAt = some 5 ∧
      (savePolicyLine "p" ["a", "b", "c"] 5).updatedAt = some 5 ∧
      d2.updatedAt = some 9 ∧ 5 < 9 ∧
      d2.ptype = (savePolicyLine "p" ["a", "b", "c"] 5).ptype :=
  ⟨by decide, c2_updatePolicy_timestamps "p" ["a", "b", "c"] ["x"] 5 9 (by decide)⟩

theorem settleDeletes_filter (sched : List (CasbinDoc × Option String)) :
    ∀ c : Collection,
      settleDeletes sched c =
        settleDeletes (sched.filter (fun j => j.2.isNone)) c := by
  induction sched with
  | nil => intro c; rfl
  | cons hd tl ih =>
    intro c
    rcases hd with ⟨line, o⟩
    cases o with
    | none => simp only [settleDeletes, List.foldl_cons, List.filter_cons] at *
              simpa [Option.isNone] using ih (deleteOne line c)
    | some e => simp only [settleDeletes, List.foldl_cons, List.filter_cons] at *
                simpa [Option.isNone] using ih c

/-- C8: `removePolicies` issues exactly one `deleteOne` per rule, built
from that rule's exact key; the `Promise.all` gathering the deletions
succeeds exactly when every deletion settled successfully, whatever order
they settle in; and the batch is not atomic: the final collection is the
one in which every fulfilled deletion is applied and every rejected one is
skipped, even when the batch as a whole fails. -/
theorem c8_removePolicies_batch (pt : String) (rules : List (List String))
    (outcomes : List (Option String)) (sched : List (CasbinDoc × Option String))
    (c : Collection)
    (hlen : outcomes.length = rules.length)
    (hperm : sched.Perm ((removePoliciesJobs pt rules).zip outcomes)) :
    removePoliciesJobs pt rules = rules.map (deletePolicyLine pt) ∧
    (removePoliciesJobs pt rules).length = rules.length ∧
    (promiseAllResult (sched.map Prod.snd) = Option.none ↔
      ∀ o ∈ outcomes, o = Option.none) ∧
    settleDeletes sched c =
      settleDeletes (sched.filter (fun j => j.2.isNone)) c := by
  refine ⟨rfl, by simp [removePoliciesJobs], ?_, settleDeletes_filter sched c⟩
  have hsnd : (sched.map Prod.snd).Perm outcomes := by
    have h1 : ((removePoliciesJobs pt rules).zip outcomes).map Prod.snd = outcomes :=
      List.map_snd_zip _ _ (by simp [removePoliciesJobs, hlen])
    exact h1 ▸ hperm.map Prod.snd
  rw [promiseAllResult, List.findSome?_eq_none_iff]
  constructor
  · intro h o ho
    exact h o (hsnd.mem_iff.mpr ho)
  · intro h o ho
    exact h o (hsnd.mem_iff.mp ho)

/-- Witness for C8: two rules whose deletions settle in the opposite
order, the second one failing; the batch fails while the successful
deletion stays applied. -/
theorem c8_witness :
    ([Option.none, some "boom"] : List (Option String)).length =
      ([["a"], ["b"]] : List (List String)).length ∧
    (removePoliciesJobs "p" [["a"], ["b"]] =
      [["a"], ["b"]].map (deletePolicyLine "p") ∧
    (removePoliciesJobs "p" [["a"], ["b"]]).length =
      ([["a"], ["b"]] : List (List String)).length ∧
    (promiseAllResult
        (([(deletePolicyLine "p" ["b"], some "boom"),
           (deletePolicyLine "p" ["a"], Option.none)] :
            List (CasbinDoc × Option String)).map Prod.snd) = Option.none ↔
      ∀ o ∈ ([Option.none, some "boom"] : List (Option String)),
        o = Option.none) ∧
    settleDeletes
        [(deletePolicyLine "p" ["b"], some "boom"),
         (deletePolicyLine "p" ["a"], Option.none)]
        [savePolicyLine "p" ["a"] 0] =
      settleDeletes
        (([(deletePolicyLine "p" ["b"], some "boom"),
           (deletePolicyLine "p" ["a"], Option.none)] :
            List (CasbinDoc × Option String)).filter (fun j => j.2.isNone))
        [savePolicyLine "p" ["a"] 0]) :=
  ⟨rfl,
    c8_removePolicies_batch "p" [["a"], ["b"]] [Option.none, some "boom"]
      [(deletePolicyLine "p" ["b"], some "boom"),
       (deletePolicyLine "p" ["a"], Option.none)]
      [savePolicyLine "p" ["a"] 0] rfl
      (List.Perm.swap (deletePolicyLine "p" ["a"], Option.none)
        (deletePolicyLine "p" ["b"], some "boom") [])⟩

end MongoAdapter
